import Mathlib

/-!
Verification of the "stateful entity with undo and notification" kernel of the
Design-Patterns-for-Finance repository, as implemented by the three toy sources
`State.py`, `Memento.py` and `Observer.py`.  Python methods become pure Lean
functions; a mutable object becomes explicit state passing; a `print` becomes
part of the returned value; a `raise` becomes an `Except.error` (or an explicit
error signal where the surrounding driver would observe it); Python's unbounded
integers become `Int`.
-/

/- ================= State.py : order state machine ================= -/

/-- Tags of the order state machine: the three concrete `OrderState` classes
`NewOrderState`, `FilledOrderState`, `CancelledOrderState`. -/
inductive Tag
  | New
  | Filled
  | Cancelled
  deriving DecidableEq, Repr, Fintype

/-- Events an `Order` accepts: the two methods of the `OrderState` interface.
The spec calls the `process` method the event `fill`. -/
inductive Event
  | fill
  | cancel
  deriving DecidableEq, Repr, Fintype

/-- Body of the `process` method of each concrete state class: the printed line
and the `order.set_state` target when one is requested (`none` when the method
only prints). -/
def stateProcess : Tag → String × Option Tag
  | .New => ("Processing new order.", some .Filled)
  | .Filled => ("Order already filled.", none)
  | .Cancelled => ("Cannot process a cancelled order.", none)

/-- Body of the `cancel` method of each concrete state class. -/
def stateCancel : Tag → String × Option Tag
  | .New => ("Cancelling new order.", some .Cancelled)
  | .Filled => ("Cancelling filled order.", some .Cancelled)
  | .Cancelled => ("Order already cancelled.", none)

/-- Dispatch of `Order.process` / `Order.cancel` to the current state object. -/
def stateMethod (t : Tag) : Event → String × Option Tag
  | .fill => stateProcess t
  | .cancel => stateCancel t

/-- One call of `Order.process()` or `Order.cancel()`: the state method runs,
`set_state` (when requested) replaces the current state, and the printed line is
the call's observable report. -/
def orderStep (t : Tag) (e : Event) : Tag × String :=
  let (msg, nt) := stateMethod t e
  (nt.getD t, msg)

/-- Resulting tag of an `Order` after a sequence of `process`/`cancel` calls. -/
def orderRun (t : Tag) : List Event → Tag
  | [] => t
  | e :: es => orderRun (orderStep t e).1 es

/-- Reasons of the spec's `IllegalTransition` signal. -/
inductive Reason
  | UnknownEvent
  | TerminalState
  deriving DecidableEq, Repr, Fintype

/-- Outcome of a transition-table lookup, as the spec describes it. -/
inductive Outcome
  | next (t : Tag)
  | rejected (r : Reason)
  deriving DecidableEq, Repr

/-- Modelled from the spec's worked example (spec side of the refinement, to be
compared with the code's `orderStep`): `New`+`fill` goes to `Filled`,
`New`+`cancel` goes to `Cancelled`, `Filled`+`cancel` goes to `Cancelled`,
`Filled`+`fill` is rejected with `UnknownEvent`, and `Cancelled` rejects every
event with `TerminalState`. -/
def transitionTable : Tag → Event → Outcome
  | .New, .fill => .next .Filled
  | .New, .cancel => .next .Cancelled
  | .Filled, .fill => .rejected .UnknownEvent
  | .Filled, .cancel => .next .Cancelled
  | .Cancelled, _ => .rejected .TerminalState

/-- One step of the spec's table: a rejected entry leaves the tag where it was. -/
def tableStep (t : Tag) (e : Event) : Tag :=
  match transitionTable t e with
  | .next t2 => t2
  | .rejected _ => t

/-- Fold of the spec's transition table over a sequence of events. -/
def tableFold (t : Tag) : List Event → Tag
  | [] => t
  | e :: es => tableFold (tableStep t e) es

/-- Decoding of an order's printed report as the illegal-transition signal it
carries: the spec reads the already-filled report as `UnknownEvent` (reported
distinctly from terminal) and the two cancelled-order reports as
`TerminalState`; successful transitions carry no such signal. -/
def reportSignal : String → Option Reason
  | "Order already filled." => some .UnknownEvent
  | "Cannot process a cancelled order." => some .TerminalState
  | "Order already cancelled." => some .TerminalState
  | _ => none

/- Helper lemmas for the state machine. -/

lemma orderStep_eq_tableStep : ∀ (t : Tag) (e : Event), (orderStep t e).1 = tableStep t e := by
  decide

lemma orderRun_eq_tableFold : ∀ (evs : List Event) (t : Tag), orderRun t evs = tableFold t evs := by
  intro evs
  induction evs with
  | nil => intro t; rfl
  | cons e es ih =>
      intro t
      show orderRun (orderStep t e).1 es = tableFold (tableStep t e) es
      rw [orderStep_eq_tableStep]
      exact ih _

/-- C1: for every finite sequence of events applied to an `Order` starting at
the initial tag `New`, the tag after the sequence equals the fold of the
worked-example transition table over that sequence; rejected entries leave the
tag where it was. -/
theorem order_run_matches_table_fold :
    ∀ (evs : List Event), orderRun Tag.New evs = tableFold Tag.New evs :=
  fun evs => orderRun_eq_tableFold evs Tag.New

/-- C3: whenever the transition table rejects `(tag, event)` the corresponding
`Order` call leaves the tag unchanged, requests no `set_state` (so nothing is
mutated and no notification can fire — `Order` invokes no notifier), and its
report carries exactly the rejection reason (`UnknownEvent` or
`TerminalState`). -/
theorem rejected_event_no_mutation :
    ∀ (t : Tag) (e : Event) (r : Reason),
      transitionTable t e = Outcome.rejected r →
      (orderStep t e).1 = t ∧ (stateMethod t e).2 = none ∧
        reportSignal (orderStep t e).2 = some r := by
  decide

/-- Witness for C3 at the terminal tag `Cancelled` and the event `fill`. -/
theorem rejected_event_no_mutation_witness :
    (orderStep Tag.Cancelled Event.fill).1 = Tag.Cancelled ∧
      (stateMethod Tag.Cancelled Event.fill).2 = none ∧
      reportSignal (orderStep Tag.Cancelled Event.fill).2 = some Reason.TerminalState :=
  rejected_event_no_mutation Tag.Cancelled Event.fill Reason.TerminalState rfl

/- ================= Memento.py : account snapshots and undo ================= -/

/-- Memento class: stores the balance passed to its constructor. -/
structure Memento where
  balance : Int
  deriving DecidableEq, Repr

/-- Memento.get_saved_state returns the stored balance. -/
def Memento.get_saved_state (m : Memento) : Int := m.balance

/-- Account (the Originator): its only field is the balance, initially 0. -/
structure Account where
  balance : Int
  deriving DecidableEq, Repr

/-- Account.deposit adds the amount to the balance. -/
def Account.deposit (a : Account) (amount : Int) : Account :=
  { a with balance := a.balance + amount }

/-- Account.withdraw raises `ValueError("Insufficient funds")` when the amount
exceeds the balance, otherwise subtracts it; the raise is the `Except.error`. -/
def Account.withdraw (a : Account) (amount : Int) : Except String Account :=
  if amount > a.balance then Except.error "Insufficient funds"
  else Except.ok { a with balance := a.balance - amount }

/-- Account.get_balance. -/
def Account.get_balance (a : Account) : Int := a.balance

/-- Account.save_state returns a Memento holding the current balance. -/
def Account.save_state (a : Account) : Memento := ⟨a.balance⟩

/-- Account.restore_state overwrites the balance with the memento's value. -/
def Account.restore_state (a : Account) (m : Memento) : Account :=
  { a with balance := m.get_saved_state }

/-- Caretaker: the account it manages and its history, a Python list used as a
stack (`append` at the end, `pop()` from the end). -/
structure Caretaker where
  account : Account
  history : List Memento
  deriving DecidableEq, Repr

/-- Caretaker.save appends `account.save_state()` to the history. -/
def Caretaker.save (c : Caretaker) : Caretaker :=
  { c with history := c.history ++ [c.account.save_state] }

/-- Result of `Caretaker.undo`: either a memento was restored, or the method
reported "No states to restore" and returned without touching the account. -/
inductive UndoResult
  | restored
  | emptyHistory
  deriving DecidableEq, Repr

/-- Caretaker.undo: with an empty history it prints "No states to restore" and
returns (the `emptyHistory` signal); otherwise it pops the most recent memento
and calls `account.restore_state` on it. -/
def Caretaker.undo (c : Caretaker) : Caretaker × UndoResult :=
  match c.history.getLast? with
  | none => (c, .emptyHistory)
  | some m =>
      ({ account := c.account.restore_state m, history := c.history.dropLast },
        .restored)

/-- Operations the Memento client drives: the two account mutations and the two
caretaker calls. -/
inductive KOp
  | depositOp (n : Int)
  | withdrawOp (n : Int)
  | saveOp
  | undoOp
  deriving DecidableEq, Repr

/-- Per-operation observable: normal return, an uncaught `ValueError` with its
message, or the result of an undo. -/
inductive KSignal
  | ok
  | raised (msg : String)
  | undoSig (r : UndoResult)
  deriving DecidableEq, Repr

/-- One driver step: deposits and withdrawals act on the caretaker's account
(a raised error leaves the account as it was, since the raise happens before
the balance assignment); save/undo are the caretaker methods. -/
def runKOp (c : Caretaker) : KOp → Caretaker × KSignal
  | .depositOp n => ({ c with account := c.account.deposit n }, .ok)
  | .withdrawOp n =>
      match c.account.withdraw n with
      | .ok a2 => ({ c with account := a2 }, .ok)
      | .error e => (c, .raised e)
  | .saveOp => (c.save, .ok)
  | .undoOp =>
      let r := c.undo
      (r.1, .undoSig r.2)

/-- Driver over a list of operations, collecting each operation's signal; an
uncaught raise aborts the remaining operations, as in Python. -/
def runKOps (c : Caretaker) : List KOp → Caretaker × List KSignal
  | [] => (c, [])
  | op :: ops =>
      match runKOp c op with
      | (c2, .raised e) => (c2, [.raised e])
      | (c2, s) =>
          let r := runKOps c2 ops
          (r.1, s :: r.2)

/-- Initial client configuration: `Account()` with balance 0 and a caretaker
with an empty history. -/
def initialCaretaker : Caretaker := ⟨⟨0⟩, []⟩

/-- Balance after running the given operations from the initial configuration. -/
def balanceAfter (ops : List KOp) : Int :=
  (runKOps initialCaretaker ops).1.account.get_balance

/-- C2: the exact scenario deposit(100); save; deposit(50); withdraw(30); save;
withdraw(100); undo; undo; undo from balance 0 yields balances 100, 150, 120,
20 after the mutations, 120 after the first undo, 100 after the second, and the
third undo reports the empty history and leaves the balance at 100. -/
theorem memento_scenario :
    balanceAfter [KOp.depositOp 100] = 100 ∧
    balanceAfter [KOp.depositOp 100, KOp.saveOp, KOp.depositOp 50] = 150 ∧
    balanceAfter [KOp.depositOp 100, KOp.saveOp, KOp.depositOp 50,
      KOp.withdrawOp 30] = 120 ∧
    balanceAfter [KOp.depositOp 100, KOp.saveOp, KOp.depositOp 50,
      KOp.withdrawOp 30, KOp.saveOp, KOp.withdrawOp 100] = 20 ∧
    balanceAfter [KOp.depositOp 100, KOp.saveOp, KOp.depositOp 50,
      KOp.withdrawOp 30, KOp.saveOp, KOp.withdrawOp 100, KOp.undoOp] = 120 ∧
    balanceAfter [KOp.depositOp 100, KOp.saveOp, KOp.depositOp 50,
      KOp.withdrawOp 30, KOp.saveOp, KOp.withdrawOp 100, KOp.undoOp,
      KOp.undoOp] = 100 ∧
    runKOps initialCaretaker [KOp.depositOp 100, KOp.saveOp, KOp.depositOp 50,
      KOp.withdrawOp 30, KOp.saveOp, KOp.withdrawOp 100, KOp.undoOp,
      KOp.undoOp, KOp.undoOp] =
      (⟨⟨100⟩, []⟩,
        [KSignal.ok, KSignal.ok, KSignal.ok, KSignal.ok, KSignal.ok, KSignal.ok,
          KSignal.undoSig UndoResult.restored,
          KSignal.undoSig UndoResult.restored,
          KSignal.undoSig UndoResult.emptyHistory]) := by
  decide

/-- C4: undo on an empty history returns the empty-history signal and leaves
the caretaker (account and history) exactly as it was; on a non-empty history
it pops the most recent memento and overwrites the account with its value. -/
theorem undo_contract :
    ∀ (c : Caretaker),
      (c.history = [] → c.undo = (c, UndoResult.emptyHistory)) ∧
      (∀ (h : List Memento) (m : Memento), c.history = h ++ [m] →
        c.undo = ({ account := c.account.restore_state m, history := h },
          UndoResult.restored)) := by
  intro c
  constructor
  · intro he
    simp [Caretaker.undo, he]
  · intro h m he
    simp [Caretaker.undo, he, List.getLast?_concat, List.dropLast_concat]

/-- Witness for C4: a one-memento history pops it, and an empty history reports
the empty-history signal. -/
theorem undo_contract_witness :
    Caretaker.undo ⟨⟨5⟩, [⟨3⟩]⟩ =
      ({ account := Account.restore_state ⟨5⟩ ⟨3⟩, history := [] },
        UndoResult.restored) ∧
    Caretaker.undo ⟨⟨5⟩, []⟩ = (⟨⟨5⟩, []⟩, UndoResult.emptyHistory) :=
  ⟨(undo_contract ⟨⟨5⟩, [⟨3⟩]⟩).2 [] ⟨3⟩ rfl, (undo_contract ⟨⟨5⟩, []⟩).1 rfl⟩

/- ================= Observer.py : subject and observers ================= -/

/-- WeatherData.attach: the observer is appended only when it is not already in
the `_observers` list. Observer instances are modelled by handles (`Nat`). -/
def WeatherData.attach (obs : List Nat) (o : Nat) : List Nat :=
  if o ∈ obs then obs else obs ++ [o]

/-- WeatherData.detach: `list.remove` drops the first occurrence, guarded by a
membership check. -/
def WeatherData.detach (obs : List Nat) (o : Nat) : List Nat :=
  if o ∈ obs then obs.erase o else obs

/-- WeatherData.notify when no callback mutates the registry: one
`observer.update(temperature)` call per registered observer, in list order. -/
def WeatherData.notifyCalls (obs : List Nat) (temperature : Int) : List (Nat × Int) :=
  obs.map (fun o => (o, temperature))

lemma notifyCalls_count (l : List Nat) (o : Nat) (t : Int) :
    (WeatherData.notifyCalls l t).count (o, t) = l.count o := by
  induction l with
  | nil => rfl
  | cons a l ih =>
      simp only [WeatherData.notifyCalls, List.map_cons, List.count_cons] at *
      rw [ih]
      by_cases h : a = o
      · simp [h]
      · simp [h, Prod.ext_iff]

/-- C6: attaching the same observer twice is idempotent — the registry after the
second attach equals the registry after the first — and starting from a registry
not containing the observer it yields exactly one registration and exactly one
update call to that observer per notification. -/
theorem attach_idempotent :
    ∀ (obs : List Nat) (o : Nat) (temp : Int),
      WeatherData.attach (WeatherData.attach obs o) o = WeatherData.attach obs o ∧
      (o ∉ obs →
        (WeatherData.attach (WeatherData.attach obs o) o).count o = 1 ∧
        (WeatherData.notifyCalls (WeatherData.attach (WeatherData.attach obs o) o)
          temp).count (o, temp) = 1) := by
  intro obs o temp
  have hidem : WeatherData.attach (WeatherData.attach obs o) o =
      WeatherData.attach obs o := by
    by_cases h : o ∈ obs <;> simp [WeatherData.attach, h]
  refine ⟨hidem, fun hno => ?_⟩
  have hcount : (WeatherData.attach (WeatherData.attach obs o) o).count o = 1 := by
    rw [hidem]
    simp [WeatherData.attach, hno, List.count_append, List.count_eq_zero_of_not_mem hno]
  exact ⟨hcount, by rw [notifyCalls_count, hcount]⟩

/-- Witness for C6: attaching observer 7 twice to the empty registry registers
it once and delivers it one update for one temperature change. -/
theorem attach_idempotent_witness :
    (WeatherData.attach (WeatherData.attach [] 7) 7).count 7 = 1 ∧
      (WeatherData.notifyCalls (WeatherData.attach (WeatherData.attach [] 7) 7)
        25).count (7, 25) = 1 :=
  (attach_idempotent [] 7 25).2 (by simp)

/-- Registry operations an observer callback may perform on the subject while
being notified. -/
inductive RegOp
  | attachOp (o : Nat)
  | detachOp (o : Nat)
  deriving DecidableEq, Repr

/-- Application of one registry operation, through the subject's methods. -/
def applyRegOp (obs : List Nat) : RegOp → List Nat
  | .attachOp o => WeatherData.attach obs o
  | .detachOp o => WeatherData.detach obs o

/-- Application of a callback's registry operations in order. -/
def applyRegOps (obs : List Nat) : List RegOp → List Nat
  | [] => obs
  | op :: ops => applyRegOps (applyRegOp obs op) ops

/-- WeatherData.notify with reentrant callbacks: `for observer in
self._observers` iterates the live list by index (the CPython list iterator
fetches `obs[i]`, runs the callback — which may mutate the list — then advances
to `i+1` against the mutated list). `env` gives each observer handle the
registry operations its `update` performs; `fuel` bounds the iteration (the
loop itself stops as soon as the index falls outside the current list).
Returns the final registry and the delivery log. -/
def notifyLoop (env : Nat → List RegOp) :
    Nat → Nat → List Nat → List Nat → List Nat × List Nat
  | 0, _, obs, delivered => (obs, delivered)
  | fuel + 1, i, obs, delivered =>
      if h : i < obs.length then
        notifyLoop env fuel (i + 1) (applyRegOps obs (env obs[i]))
          (delivered ++ [obs[i]])
      else (obs, delivered)

/-- Environment in which observer 0's callback detaches observer 0 itself and
every other callback does nothing. -/
def selfDetachEnv : Nat → List RegOp :=
  fun j => if j = 0 then [RegOp.detachOp 0] else []

/-- Environment in which no callback touches the registry. -/
def emptyEnv : Nat → List RegOp := fun _ => []

/-- Counterexample to C7: with observers `[0, 1]` registered at invocation and
observer 0 detaching itself from within its own callback, the fan-out delivers
only to observer 0 — observer 1, registered at the moment notify was invoked,
is skipped (the same with more fuel, so this is the loop's real result, not a
fuel artifact). -/
theorem notify_reentrant_detach_skips :
    (notifyLoop selfDetachEnv 2 0 [0, 1] []).2 = [0] ∧
    (notifyLoop selfDetachEnv 10 0 [0, 1] []).2 = [0] ∧
    1 ∈ [0, 1] ∧ 1 ∉ (notifyLoop selfDetachEnv 2 0 [0, 1] []).2 := by
  decide

lemma notifyLoop_no_ops (env : Nat → List RegOp) (obs : List Nat)
    (henv : ∀ o ∈ obs, env o = []) :
    ∀ (fuel i : Nat) (delivered : List Nat), obs.length - i ≤ fuel →
      notifyLoop env fuel i obs delivered = (obs, delivered ++ obs.drop i) := by
  intro fuel
  induction fuel with
  | zero =>
      intro i d h
      have hle : obs.length ≤ i := by omega
      simp [notifyLoop, List.drop_eq_nil_of_le hle]
  | succ fuel ih =>
      intro i d h
      by_cases hi : i < obs.length
      · rw [notifyLoop, dif_pos hi, henv _ (obs.getElem_mem hi)]
        show notifyLoop env fuel (i + 1) obs (d ++ [obs[i]]) = _
        rw [ih (i + 1) (d ++ [obs[i]]) (by omega)]
        rw [List.append_assoc, List.singleton_append, List.getElem_cons_drop]
      · have hle : obs.length ≤ i := Nat.le_of_not_lt hi
        rw [notifyLoop, dif_neg hi, List.drop_eq_nil_of_le hle, List.append_nil]

/-- C7 as amended: notify iterates the live observer list by index, so when no
callback mutates the registry it delivers to exactly the observers registered
at invocation, in insertion order, and the registry is unchanged; but the loop
takes no stable snapshot, and (per the counterexample) an observer that
detaches itself during its own callback makes the fan-out skip the observer
after it for that event. -/
theorem notify_delivers_registered_when_not_reentrant :
    ∀ (env : Nat → List RegOp) (obs : List Nat) (fuel : Nat),
      (∀ o ∈ obs, env o = []) → obs.length ≤ fuel →
      notifyLoop env fuel 0 obs [] = (obs, obs) := by
  intro env obs fuel henv hf
  have h := notifyLoop_no_ops env obs henv fuel 0 [] (by omega)
  simpa using h

/-- Witness for the amended C7: two passive observers are both delivered, in
insertion order. -/
theorem notify_delivers_registered_when_not_reentrant_witness :
    notifyLoop emptyEnv 2 0 [3, 4] [] = ([3, 4], [3, 4]) :=
  notify_delivers_registered_when_not_reentrant emptyEnv [3, 4] 2
    (fun _ _ => rfl) (by decide)

/-- WeatherData.notify when a callback can raise: `fails o = true` means
observer `o`'s `update` raises. The `for` body has no `try`, so the exception
propagates out of `notify` (and out of `set_temperature`) at once:
`Except.error (o, delivered)` records the raising observer and the observers
already updated; `Except.ok delivered` is the normal completion. -/
def notifyExc (fails : Nat → Bool) :
    List Nat → List Nat → Except (Nat × List Nat) (List Nat)
  | [], delivered => .ok delivered
  | o :: rest, delivered =>
      if fails o then .error (o, delivered)
      else notifyExc fails rest (delivered ++ [o])

/-- Environment in which exactly observer 0's callback raises. -/
def failsAtZero : Nat → Bool := fun j => j == 0

/-- Environment in which no callback raises. -/
def noFails : Nat → Bool := fun _ => false

/-- Counterexample to C8: with observers `[0, 1]` and observer 0's callback
raising, the fan-out ends in an uncaught error — it propagates to the caller of
the state-changing operation — and observer 1, after the failing one, receives
nothing (the delivery log of the error is empty). -/
theorem notify_error_aborts_cex :
    notifyExc failsAtZero [0, 1] [] = Except.error (0, []) ∧
    (notifyExc failsAtZero [0, 1] []).isOk = false :=
  ⟨rfl, rfl⟩

lemma notifyExc_all_ok (fails : Nat → Bool) :
    ∀ (l d : List Nat), (∀ x ∈ l, fails x = false) →
      notifyExc fails l d = Except.ok (d ++ l) := by
  intro l
  induction l with
  | nil => intro d _; simp [notifyExc]
  | cons a l ih =>
      intro d h
      have ha : fails a = false := h a (by simp)
      rw [notifyExc, ha]
      simp only [Bool.false_eq_true, if_false]
      rw [ih (d ++ [a]) (fun x hx => h x (by simp [hx]))]
      simp

lemma notifyExc_raise (fails : Nat → Bool) :
    ∀ (l1 : List Nat) (o : Nat) (l2 d : List Nat),
      (∀ x ∈ l1, fails x = false) → fails o = true →
      notifyExc fails (l1 ++ o :: l2) d = Except.error (o, d ++ l1) := by
  intro l1
  induction l1 with
  | nil => intro o l2 d _ ho; simp [notifyExc, ho]
  | cons a l1 ih =>
      intro o l2 d h ho
      have ha : fails a = false := h a (by simp)
      rw [List.cons_append, notifyExc, ha]
      simp only [Bool.false_eq_true, if_false]
      rw [ih o l2 (d ++ [a]) (fun x hx => h x (by simp [hx])) ho]
      simp

/-- C8 as amended: an exception raised by an observer's callback during notify
is not caught per-observer — it propagates to the caller of the state-changing
operation and aborts the fan-out, so every observer after the failing one
receives nothing; when no callback raises, every registered observer is
delivered, in insertion order. -/
theorem notify_error_propagates_and_aborts :
    ∀ (fails : Nat → Bool),
      (∀ (l1 : List Nat) (o : Nat) (l2 : List Nat),
        (∀ x ∈ l1, fails x = false) → fails o = true →
        notifyExc fails (l1 ++ o :: l2) [] = Except.error (o, l1)) ∧
      (∀ l : List Nat, (∀ x ∈ l, fails x = false) →
        notifyExc fails l [] = Except.ok l) := by
  intro fails
  constructor
  · intro l1 o l2 h ho
    simpa using notifyExc_raise fails l1 o l2 [] h ho
  · intro l h
    simpa using notifyExc_all_ok fails l [] h

/-- Witness for the amended C8: a raising head observer aborts delivery to the
tail, and a fully passive registry is delivered in full. -/
theorem notify_error_propagates_and_aborts_witness :
    notifyExc failsAtZero ([] ++ 0 :: [1]) [] = Except.error (0, []) ∧
    notifyExc noFails [2, 5] [] = Except.ok [2, 5] :=
  ⟨(notify_error_propagates_and_aborts failsAtZero).1 [] 0 [1] (by simp) rfl,
   (notify_error_propagates_and_aborts noFails).2 [2, 5] (fun _ _ => rfl)⟩

/- ================= Remaining Memento-side properties ================= -/

/-- Predicate picking the account mutations (deposit/withdraw) among the driver
operations. -/
def KOp.isMutation : KOp → Bool
  | .depositOp _ => true
  | .withdrawOp _ => true
  | _ => false

lemma runKOps_mutations_history :
    ∀ (muts : List KOp) (c : Caretaker),
      (∀ op ∈ muts, op.isMutation = true) →
      (runKOps c muts).1.history = c.history := by
  intro muts
  induction muts with
  | nil => intro c _; rfl
  | cons op ops ih =>
      intro c h
      have hop : op.isMutation = true := h op (by simp)
      have hops : ∀ op2 ∈ ops, op2.isMutation = true :=
        fun op2 h2 => h op2 (by simp [h2])
      cases op with
      | depositOp n =>
          show (runKOps { c with account := c.account.deposit n } ops).1.history = _
          exact ih _ hops
      | withdrawOp n =>
          cases hw : c.account.withdraw n with
          | ok a2 =>
              simp only [runKOps, runKOp, hw]
              exact ih { c with account := a2 } hops
          | error e => simp only [runKOps, runKOp, hw]
      | saveOp => simp [KOp.isMutation] at hop
      | undoOp => simp [KOp.isMutation] at hop

lemma undo_of_concat_history (c : Caretaker) (h : List Memento) (m : Memento)
    (he : c.history = h ++ [m]) :
    c.undo = ({ account := c.account.restore_state m, history := h },
      UndoResult.restored) := by
  simp [Caretaker.undo, he, List.getLast?_concat, List.dropLast_concat]

/-- C5: a snapshot taken by `save` holds its value: running any sequence of
account mutations (deposits/withdrawals, including failing ones) after the save
leaves the whole history — in particular the snapshot just captured — exactly
as it was, and undoing afterwards reproduces the account as it was at the save,
by value. -/
theorem snapshot_value_semantics :
    ∀ (c : Caretaker) (muts : List KOp),
      (∀ op ∈ muts, op.isMutation = true) →
      (runKOps c.save muts).1.history = c.history ++ [c.account.save_state] ∧
      ((runKOps c.save muts).1.undo).1.account = c.account ∧
      ((runKOps c.save muts).1.undo).2 = UndoResult.restored := by
  intro c muts h
  have hh : (runKOps c.save muts).1.history =
      c.history ++ [c.account.save_state] :=
    runKOps_mutations_history muts c.save h
  have hu := undo_of_concat_history (runKOps c.save muts).1
    c.history c.account.save_state hh
  refine ⟨hh, ?_, ?_⟩
  · rw [hu]
    show Account.restore_state (runKOps c.save muts).1.account
      c.account.save_state = c.account
    cases c.account with
    | mk b => rfl
  · rw [hu]

/-- Witness for C5: saving at balance 7, then depositing 5 and attempting an
overdraft, keeps the snapshot intact and undo restores balance 7. -/
theorem snapshot_value_semantics_witness :
    (runKOps (Caretaker.save ⟨⟨7⟩, []⟩)
        [KOp.depositOp 5, KOp.withdrawOp 100]).1.history =
      [] ++ [Account.save_state ⟨7⟩] ∧
    ((runKOps (Caretaker.save ⟨⟨7⟩, []⟩)
        [KOp.depositOp 5, KOp.withdrawOp 100]).1.undo).1.account = (⟨7⟩ : Account) ∧
    ((runKOps (Caretaker.save ⟨⟨7⟩, []⟩)
        [KOp.depositOp 5, KOp.withdrawOp 100]).1.undo).2 = UndoResult.restored :=
  snapshot_value_semantics ⟨⟨7⟩, []⟩ [KOp.depositOp 5, KOp.withdrawOp 100]
    (by decide)

lemma orderStep_no_transition :
    ∀ (t : Tag) (e : Event), (stateMethod t e).2 = none →
      orderStep t e = (t, (stateMethod t e).1) := by
  decide

/-- C9: the kernel's operations signal expected conditions as ordinary values
and never raise for them — no driver operation other than `withdraw` can
produce a raised signal (in particular `undo` cannot), `undo` on an empty
history returns the empty-history value, and an event with no transition makes
the order call return normally with the tag unchanged and its report. -/
theorem expected_conditions_not_raised :
    ∀ (c : Caretaker) (op : KOp) (t : Tag) (e : Event),
      ((∀ n : Int, op ≠ KOp.withdrawOp n) →
        ∀ msg, (runKOp c op).2 ≠ KSignal.raised msg) ∧
      (c.history = [] →
        (runKOp c KOp.undoOp).2 = KSignal.undoSig UndoResult.emptyHistory) ∧
      ((stateMethod t e).2 = none → orderStep t e = (t, (stateMethod t e).1)) := by
  intro c op t e
  refine ⟨?_, ?_, fun hn => orderStep_no_transition t e hn⟩
  · intro hnw msg
    cases op with
    | depositOp n => simp [runKOp]
    | withdrawOp n => exact absurd rfl (hnw n)
    | saveOp => simp [runKOp]
    | undoOp => simp [runKOp]
  · intro he
    simp [runKOp, Caretaker.undo, he]

/-- Witness for C9: from the initial configuration, `save` raises nothing,
`undo` reports the empty history as a value, and the terminal tag's rejected
event returns normally. -/
theorem expected_conditions_not_raised_witness :
    (runKOp initialCaretaker KOp.saveOp).2 ≠ KSignal.raised "Insufficient funds" ∧
    (runKOp initialCaretaker KOp.undoOp).2 =
      KSignal.undoSig UndoResult.emptyHistory ∧
    orderStep Tag.Cancelled Event.fill =
      (Tag.Cancelled, (stateMethod Tag.Cancelled Event.fill).1) :=
  ⟨(expected_conditions_not_raised initialCaretaker KOp.saveOp Tag.Cancelled
      Event.fill).1 (fun _ h => nomatch h) "Insufficient funds",
   (expected_conditions_not_raised initialCaretaker KOp.saveOp Tag.Cancelled
      Event.fill).2.1 rfl,
   (expected_conditions_not_raised initialCaretaker KOp.saveOp Tag.Cancelled
      Event.fill).2.2 rfl⟩

/-- C10: withdraw raises `ValueError("Insufficient funds")` exactly when the
amount strictly exceeds the balance, in which case the caretaker (balance
included) is unchanged; when the amount is at most the balance (the full
balance included) it succeeds and the new balance is the old one minus the
amount. -/
theorem withdraw_insufficient_funds :
    ∀ (c : Caretaker) (n : Int),
      ((runKOp c (KOp.withdrawOp n)).2 = KSignal.raised "Insufficient funds" ↔
        c.account.balance < n) ∧
      (c.account.balance < n →
        runKOp c (KOp.withdrawOp n) = (c, KSignal.raised "Insufficient funds")) ∧
      (n ≤ c.account.balance →
        runKOp c (KOp.withdrawOp n) =
          ({ c with account := ⟨c.account.balance - n⟩ }, KSignal.ok)) := by
  intro c n
  by_cases hlt : c.account.balance < n
  · refine ⟨?_, fun _ => ?_, fun hle => absurd hlt (not_lt.mpr hle)⟩
    · simp [runKOp, Account.withdraw, gt_iff_lt, hlt]
    · simp [runKOp, Account.withdraw, gt_iff_lt, hlt]
  · have hle : n ≤ c.account.balance := not_lt.mp hlt
    refine ⟨?_, fun h => absurd h hlt, fun _ => ?_⟩
    · simp [runKOp, Account.withdraw, gt_iff_lt, hlt]
    · simp [runKOp, Account.withdraw, gt_iff_lt, hlt]

/-- Witness for C10: at balance 50, withdrawing 100 raises and leaves the
balance at 50, and withdrawing 30 leaves 20. -/
theorem withdraw_insufficient_funds_witness :
    runKOp ⟨⟨50⟩, []⟩ (KOp.withdrawOp 100) =
      ((⟨⟨50⟩, []⟩ : Caretaker), KSignal.raised "Insufficient funds") ∧
    runKOp ⟨⟨50⟩, []⟩ (KOp.withdrawOp 30) =
      ((⟨⟨20⟩, []⟩ : Caretaker), KSignal.ok) := by
  constructor
  · exact (withdraw_insufficient_funds ⟨⟨50⟩, []⟩ 100).2.1 (by norm_num)
  · have h := (withdraw_insufficient_funds ⟨⟨50⟩, []⟩ 30).2.2 (by norm_num)
    rw [h]
    norm_num
